import Mathlib

/-!
Verification development for the `plexus` half-edge mesh graph.

The four keyed storages of a `MeshGraph` (vertices, arcs, edges, faces) are
modelled as association lists from typed keys to payloads.  Geometry payloads
are abstracted away: every claim under consideration is purely topological, so
payloads keep only their topological fields (`leading_arc`, `next`,
`previous`, `face`, `edge`, representative arc).

Definitions translated from the sources keep the source names
(`MeshGraph.arity`, `MeshGraph.triangulate`, `vertexCount`, ...).  Parts of
the mutation engine that are only called (not defined) in the sources are
modelled from the spec and are marked as such in their doc comments.
-/

set_option maxHeartbeats 1000000

namespace Plexus

/-- Opaque vertex key: a generated numeric identifier (monotonic, unique per
insertion). -/
structure VertexKey where
  key : Nat
deriving DecidableEq, Repr

/-- Modelled from the spec: `ArcKey` (defined in the storage key module, which
is not among the sources) is the *ordered pair* of the source and destination
vertex keys. -/
structure ArcKey where
  source : VertexKey
  dest : VertexKey
deriving DecidableEq, Repr

/-- Modelled from the spec: the opposite arc's key is obtained by swapping the
pair; no storage lookup is required to compute it. -/
def ArcKey.intoOpposite (k : ArcKey) : ArcKey :=
  ⟨k.dest, k.source⟩

/-- Modelled from the spec: `EdgeKey` is the unordered, canonicalized pair of
the two vertex keys, so either arc of a composite edge maps to the same edge
key. -/
structure EdgeKey where
  lo : VertexKey
  hi : VertexKey
deriving DecidableEq, Repr

/-- Canonicalize an arc key into the edge key of its composite edge. -/
def edgeKeyOf (k : ArcKey) : EdgeKey :=
  if k.source.key ≤ k.dest.key then ⟨k.source, k.dest⟩ else ⟨k.dest, k.source⟩

/-- Opaque face key. -/
structure FaceKey where
  key : Nat
deriving DecidableEq, Repr

/-- Vertex payload: `leading_arc` is an outgoing arc from this vertex, `none`
only for a disjoint vertex. -/
structure Vertex where
  leadingArc : Option ArcKey
deriving DecidableEq, Repr

/-- Arc payload: ring neighbours, bordered face (`none` means boundary arc)
and composite edge. -/
structure Arc where
  next : Option ArcKey
  previous : Option ArcKey
  face : Option FaceKey
  edge : Option EdgeKey
deriving DecidableEq, Repr

/-- Edge payload: a representative arc key (the other arc is derived by key
inversion). -/
structure Edge where
  arc : ArcKey
deriving DecidableEq, Repr

/-- Face payload: `leading_arc` is any arc in the face's ring. -/
structure Face where
  leadingArc : ArcKey
deriving DecidableEq, Repr

/-- Keys of an association-list storage. -/
def keys {K V : Type} (l : List (K × V)) : List K :=
  l.map Prod.fst

/-- Storage lookup: `get(key) -> Option<&Payload>`; absent keys yield `none`. -/
def assocLookup {K V : Type} [DecidableEq K] : List (K × V) → K → Option V
  | [], _ => none
  | p :: rest, k => if p.1 = k then some p.2 else assocLookup rest k

/-- Storage removal of a key (no-op when the key is absent). -/
def assocRemove {K V : Type} [DecidableEq K] : List (K × V) → K → List (K × V)
  | [], _ => []
  | p :: rest, k => if p.1 = k then assocRemove rest k else p :: assocRemove rest k

/-- Storage insertion at a given key, replacing any previous entry for that
key (associative-container semantics). -/
def assocInsert {K V : Type} [DecidableEq K] (l : List (K × V)) (k : K) (v : V) :
    List (K × V) :=
  (k, v) :: assocRemove l k

/-- Pointwise update of the payload stored at a key. -/
def assocUpdate {K V : Type} [DecidableEq K] (l : List (K × V)) (k : K) (f : V → V) :
    List (K × V) :=
  l.map (fun p => (p.1, if p.1 = k then f p.2 else p.2))

/-- The core binder: the four element storages of a mesh graph. -/
structure MeshGraph where
  vertices : List (VertexKey × Vertex)
  arcs : List (ArcKey × Arc)
  edges : List (EdgeKey × Edge)
  faces : List (FaceKey × Face)
deriving DecidableEq, Repr

/-- `MeshGraph::new`: the empty graph (also `Default::default()`). -/
def MeshGraph.new : MeshGraph :=
  ⟨[], [], [], []⟩

/-- `MeshGraph::vertex_count`. -/
def MeshGraph.vertexCount (g : MeshGraph) : Nat :=
  g.vertices.length

/-- `MeshGraph::arc_count`. -/
def MeshGraph.arcCount (g : MeshGraph) : Nat :=
  g.arcs.length

/-- `MeshGraph::edge_count`. -/
def MeshGraph.edgeCount (g : MeshGraph) : Nat :=
  g.edges.length

/-- `MeshGraph::face_count`. -/
def MeshGraph.faceCount (g : MeshGraph) : Nat :=
  g.faces.length

/-- The part of the `Consistent` contract used by the claims below: storages
are keyed without duplicates, every arc has its opposite arc present, and an
arc's endpoints are distinct registered vertices. -/
def Consistent (g : MeshGraph) : Prop :=
  (keys g.vertices).Nodup ∧ (keys g.arcs).Nodup ∧
    (keys g.edges).Nodup ∧ (keys g.faces).Nodup ∧
    (∀ k ∈ keys g.arcs, k.intoOpposite ∈ keys g.arcs) ∧
    (∀ k ∈ keys g.arcs,
      k.source ∈ keys g.vertices ∧ k.dest ∈ keys g.vertices ∧ k.source ≠ k.dest)

instance (g : MeshGraph) : Decidable (Consistent g) := by
  unfold Consistent
  infer_instance

/-- `GraphError`: the typed error enumeration of the graph module. -/
inductive GraphError where
  | topologyNotFound
  | topologyConflict
  | topologyMalformed
  | arityNonPolygonal
  | arityConflict (expected : Nat) (actual : Nat)
  | arityNonUniform
  | geometry
deriving DecidableEq, Repr

/-- `Arity`: uniform arity, or non-uniform with minimum and maximum. -/
inductive Arity where
  | uniform (arity : Nat)
  | nonUniform (lo : Nat) (hi : Nat)
deriving DecidableEq, Repr

/-- `itertools::MinMaxResult`: `oneElement` is produced exactly when the
iterator yields a single element; two or more elements always produce
`minMax`, even when all elements are equal. -/
inductive MinMaxResult (α : Type) where
  | noElements
  | oneElement (a : α)
  | minMax (mn : α) (mx : α)
deriving DecidableEq, Repr

/-- `itertools::Itertools::minmax` on a list of naturals. -/
def minmax : List Nat → MinMaxResult Nat
  | [] => .noElements
  | [a] => .oneElement a
  | a :: b :: rest => .minMax ((b :: rest).foldl Nat.min a) ((b :: rest).foldl Nat.max a)

/-- Walk a ring by `next` pointers, counting the arcs until the walk returns
to its starting arc (fuel-bounded; any well-formed ring is shorter than the
arc storage). -/
def ringLenAux (g : MeshGraph) (start : ArcKey) : ArcKey → Nat → Nat → Nat
  | _, 0, acc => acc
  | cur, fuel + 1, acc =>
    match assocLookup g.arcs cur with
    | none => acc
    | some a =>
      match a.next with
      | none => acc + 1
      | some nxt => if nxt = start then acc + 1 else ringLenAux g start nxt fuel (acc + 1)

/-- Length of the ring through a starting arc. -/
def ringLen (g : MeshGraph) (start : ArcKey) : Nat :=
  ringLenAux g start start (g.arcs.length + 1) 0

/-- Collect the arcs of the ring through a starting arc, in ring order
(models `ring().interior_arcs()`). -/
def ringArcsAux (g : MeshGraph) (start : ArcKey) : ArcKey → Nat → List ArcKey
  | _, 0 => []
  | cur, fuel + 1 =>
    match assocLookup g.arcs cur with
    | none => []
    | some a =>
      cur ::
        match a.next with
        | none => []
        | some nxt => if nxt = start then [] else ringArcsAux g start nxt fuel

/-- The arcs of the ring through a starting arc. -/
def ringArcs (g : MeshGraph) (start : ArcKey) : List ArcKey :=
  ringArcsAux g start start (g.arcs.length + 1)

/-- `FaceView::arity`: the number of arcs in the face's ring, walked from its
leading arc. -/
def faceArity (g : MeshGraph) (f : FaceKey) : Nat :=
  match assocLookup g.faces f with
  | none => 0
  | some face => ringLen g face.leadingArc

/-- `MeshGraph::arity`: classify the arities of all faces through
`itertools`' `minmax`, as the source does. -/
def MeshGraph.arity (g : MeshGraph) : Arity :=
  match minmax ((keys g.faces).map (faceArity g)) with
  | .oneElement a => .uniform a
  | .minMax mn mx => .nonUniform mn mx
  | .noElements => .uniform 0

/-- Shorthand for a vertex key. -/
def vk (n : Nat) : VertexKey :=
  ⟨n⟩

/-- Shorthand for an arc key. -/
def ak (a b : Nat) : ArcKey :=
  ⟨⟨a⟩, ⟨b⟩⟩

/-- Shorthand for a face key. -/
def fk (n : Nat) : FaceKey :=
  ⟨n⟩

/-- A single quadrilateral face over vertices 0, 1, 2, 3 (the graph of
`from_raw_buffers_with_arity(vec![0, 1, 2, 3], ..., 4)`). -/
def quad : MeshGraph where
  vertices :=
    [(vk 0, ⟨some (ak 0 1)⟩), (vk 1, ⟨some (ak 1 2)⟩),
      (vk 2, ⟨some (ak 2 3)⟩), (vk 3, ⟨some (ak 3 0)⟩)]
  arcs :=
    [(ak 0 1, ⟨some (ak 1 2), some (ak 3 0), some (fk 0), some (edgeKeyOf (ak 0 1))⟩),
      (ak 1 2, ⟨some (ak 2 3), some (ak 0 1), some (fk 0), some (edgeKeyOf (ak 1 2))⟩),
      (ak 2 3, ⟨some (ak 3 0), some (ak 1 2), some (fk 0), some (edgeKeyOf (ak 2 3))⟩),
      (ak 3 0, ⟨some (ak 0 1), some (ak 2 3), some (fk 0), some (edgeKeyOf (ak 3 0))⟩),
      (ak 1 0, ⟨some (ak 0 3), some (ak 2 1), none, some (edgeKeyOf (ak 0 1))⟩),
      (ak 0 3, ⟨some (ak 3 2), some (ak 1 0), none, some (edgeKeyOf (ak 3 0))⟩),
      (ak 3 2, ⟨some (ak 2 1), some (ak 0 3), none, some (edgeKeyOf (ak 2 3))⟩),
      (ak 2 1, ⟨some (ak 1 0), some (ak 3 2), none, some (edgeKeyOf (ak 1 2))⟩)]
  edges :=
    [(edgeKeyOf (ak 0 1), ⟨ak 0 1⟩), (edgeKeyOf (ak 1 2), ⟨ak 1 2⟩),
      (edgeKeyOf (ak 2 3), ⟨ak 2 3⟩), (edgeKeyOf (ak 3 0), ⟨ak 3 0⟩)]
  faces := [(fk 0, ⟨ak 0 1⟩)]

/-- Two triangles sharing the edge between vertices 0 and 2 (the graph of
`from_raw_buffers_with_arity(vec![0, 1, 2, 0, 2, 3], ..., 3)`). -/
def twoTri : MeshGraph where
  vertices :=
    [(vk 0, ⟨some (ak 0 1)⟩), (vk 1, ⟨some (ak 1 2)⟩),
      (vk 2, ⟨some (ak 2 0)⟩), (vk 3, ⟨some (ak 3 0)⟩)]
  arcs :=
    [(ak 0 1, ⟨some (ak 1 2), some (ak 2 0), some (fk 0), some (edgeKeyOf (ak 0 1))⟩),
      (ak 1 2, ⟨some (ak 2 0), some (ak 0 1), some (fk 0), some (edgeKeyOf (ak 1 2))⟩),
      (ak 2 0, ⟨some (ak 0 1), some (ak 1 2), some (fk 0), some (edgeKeyOf (ak 2 0))⟩),
      (ak 0 2, ⟨some (ak 2 3), some (ak 3 0), some (fk 1), some (edgeKeyOf (ak 0 2))⟩),
      (ak 2 3, ⟨some (ak 3 0), some (ak 0 2), some (fk 1), some (edgeKeyOf (ak 2 3))⟩),
      (ak 3 0, ⟨some (ak 0 2), some (ak 2 3), some (fk 1), some (edgeKeyOf (ak 3 0))⟩),
      (ak 1 0, ⟨some (ak 0 3), some (ak 2 1), none, some (edgeKeyOf (ak 0 1))⟩),
      (ak 0 3, ⟨some (ak 3 2), some (ak 1 0), none, some (edgeKeyOf (ak 3 0))⟩),
      (ak 3 2, ⟨some (ak 2 1), some (ak 0 3), none, some (edgeKeyOf (ak 2 3))⟩),
      (ak 2 1, ⟨some (ak 1 0), some (ak 3 2), none, some (edgeKeyOf (ak 1 2))⟩)]
  edges :=
    [(edgeKeyOf (ak 0 1), ⟨ak 0 1⟩), (edgeKeyOf (ak 1 2), ⟨ak 1 2⟩),
      (edgeKeyOf (ak 0 2), ⟨ak 0 2⟩), (edgeKeyOf (ak 2 3), ⟨ak 2 3⟩),
      (edgeKeyOf (ak 3 0), ⟨ak 3 0⟩)]
  faces := [(fk 0, ⟨ak 0 1⟩), (fk 1, ⟨ak 0 2⟩)]

/-- Outcome of an operation invoked through a mutable view.  `ok` and `err`
carry the storage the caller observes afterwards (on a validation error the
original storage was never touched); `panicked` models a Rust panic — the
operation neither returns a value nor surfaces a typed error. -/
inductive OpResult (α : Type) where
  | ok (graph : MeshGraph) (value : α)
  | err (graph : MeshGraph) (error : GraphError)
  | panicked
deriving DecidableEq

/-- `Selector`: identify topology by key or by index. -/
inductive Selector (K : Type) where
  | byKey (key : K)
  | byIndex (index : Nat)
deriving DecidableEq

/-- A fresh vertex key: strictly larger than every key in the vertex
storage (keys are never reused). -/
def freshVertexKey (g : MeshGraph) : VertexKey :=
  ⟨(g.vertices.map (fun p => p.1.key)).foldr Nat.max 0 + 1⟩

/-- A fresh face key: strictly larger than every key in the face storage. -/
def freshFaceKey (g : MeshGraph) : FaceKey :=
  ⟨(g.faces.map (fun p => p.1.key)).foldr Nat.max 0 + 1⟩

/-- Whether the stored arc exists and borders a face (that is, it is present
and not a boundary arc). -/
def arcFaced (g : MeshGraph) (k : ArcKey) : Bool :=
  match assocLookup g.arcs k with
  | some a => a.face.isSome
  | none => false

/-- `into_reachable_opposite_arc`: compute the opposite key by swapping the
pair, then rebind, which succeeds exactly when that key is present. -/
def reachableOppositeArc (g : MeshGraph) (k : ArcKey) : Option ArcKey :=
  if k.intoOpposite ∈ keys g.arcs then some k.intoOpposite else none

/-- Modelled from the spec: arcs and edges are always created in opposite
pairs.  Ensure the composite edge of `k` exists, inserting a fresh boundary
arc pair and its edge when missing. -/
def ensureArcPair (g : MeshGraph) (k : ArcKey) : MeshGraph :=
  if k ∈ keys g.arcs then g
  else
    { g with
      arcs :=
        assocInsert (assocInsert g.arcs k ⟨none, none, none, some (edgeKeyOf k)⟩)
          k.intoOpposite ⟨none, none, none, some (edgeKeyOf k)⟩,
      edges := assocInsert g.edges (edgeKeyOf k) ⟨k⟩ }

/-- Modelled from the spec: the split edit cache holds the key of the
initiating arc (the snapshot validates that the arc exists; splitting always
succeeds once validated). -/
structure EdgeSplitCache where
  ab : ArcKey
deriving DecidableEq

/-- Modelled from the spec: `EdgeSplitCache::snapshot` fails only when the
initiating arc cannot be found. -/
def EdgeSplitCache.snapshot (g : MeshGraph) (ab : ArcKey) :
    Except GraphError EdgeSplitCache :=
  if ab ∈ keys g.arcs then .ok ⟨ab⟩ else .error .topologyNotFound

/-- Modelled from the spec: rewire a surviving arc's ring pointers around a
split — pointers at the replaced arcs are redirected to their replacements. -/
def splitRewirePayload (ab : ArcKey) (m : VertexKey) (q : Arc) : Arc :=
  let ba := ab.intoOpposite
  let q := if q.next = some ab then { q with next := some ⟨ab.source, m⟩ } else q
  let q := if q.previous = some ab then { q with previous := some ⟨m, ab.dest⟩ } else q
  let q := if q.next = some ba then { q with next := some ⟨ab.dest, m⟩ } else q
  if q.previous = some ba then { q with previous := some ⟨m, ab.source⟩ } else q

/-- Payload of the new arc A→M of a split (ring data inherited from A→B). -/
def splitPayloadAM (g : MeshGraph) (ab : ArcKey) (m : VertexKey) : Arc :=
  let pab := (assocLookup g.arcs ab).getD ⟨none, none, none, none⟩
  ⟨some ⟨m, ab.dest⟩, pab.previous, pab.face, some (edgeKeyOf ⟨ab.source, m⟩)⟩

/-- Payload of the new arc M→B of a split. -/
def splitPayloadMB (g : MeshGraph) (ab : ArcKey) (m : VertexKey) : Arc :=
  let pab := (assocLookup g.arcs ab).getD ⟨none, none, none, none⟩
  ⟨pab.next, some ⟨ab.source, m⟩, pab.face, some (edgeKeyOf ⟨m, ab.dest⟩)⟩

/-- Payload of the new arc B→M of a split (ring data inherited from B→A). -/
def splitPayloadBM (g : MeshGraph) (ab : ArcKey) (m : VertexKey) : Arc :=
  let pba := (assocLookup g.arcs ab.intoOpposite).getD ⟨none, none, none, none⟩
  ⟨some ⟨m, ab.source⟩, pba.previous, pba.face, some (edgeKeyOf ⟨ab.dest, m⟩)⟩

/-- Payload of the new arc M→A of a split. -/
def splitPayloadMA (g : MeshGraph) (ab : ArcKey) (m : VertexKey) : Arc :=
  let pba := (assocLookup g.arcs ab.intoOpposite).getD ⟨none, none, none, none⟩
  ⟨pba.next, some ⟨ab.dest, m⟩, pba.face, some (edgeKeyOf ⟨m, ab.source⟩)⟩

/-- Modelled from the spec: the arc storage after splitting arc `ab` at a new
vertex `m`.  The existing arc pair is removed and the four arcs meeting at
`m` are inserted; the existing arc becomes A→M and a new arc M→B continues
the ring, the opposite side symmetrically. -/
def splitArcs (g : MeshGraph) (ab : ArcKey) (m : VertexKey) : List (ArcKey × Arc) :=
  assocInsert
    (assocInsert
      (assocInsert
        (assocInsert
          (assocRemove
            (assocRemove (g.arcs.map (fun p => (p.1, splitRewirePayload ab m p.2))) ab)
            ab.intoOpposite)
          ⟨ab.source, m⟩ (splitPayloadAM g ab m))
        ⟨m, ab.dest⟩ (splitPayloadMB g ab m))
      ⟨ab.dest, m⟩ (splitPayloadBM g ab m))
    ⟨m, ab.source⟩ (splitPayloadMA g ab m)

/-- Redirect a vertex's leading arc around a split when it pointed at a
replaced arc. -/
def splitVertexPayload (ab : ArcKey) (m : VertexKey) (q : Vertex) : Vertex :=
  if q.leadingArc = some ab then ⟨some ⟨ab.source, m⟩⟩
  else if q.leadingArc = some ab.intoOpposite then ⟨some ⟨ab.dest, m⟩⟩
  else q

/-- Modelled from the spec: the vertex storage after a split; the new vertex
`m` is inserted with leading arc M→B, and leading arcs that pointed at the
replaced arcs are redirected. -/
def splitVertices (g : MeshGraph) (ab : ArcKey) (m : VertexKey) :
    List (VertexKey × Vertex) :=
  assocInsert (g.vertices.map (fun p => (p.1, splitVertexPayload ab m p.2)))
    m ⟨some ⟨m, ab.dest⟩⟩

/-- Modelled from the spec: the edge storage after a split; the composite
edge of the split arc is replaced by the two edges meeting at `m`. -/
def splitEdges (g : MeshGraph) (ab : ArcKey) (m : VertexKey) :
    List (EdgeKey × Edge) :=
  let am : ArcKey := ⟨ab.source, m⟩
  let mb : ArcKey := ⟨m, ab.dest⟩
  assocInsert (assocInsert (assocRemove g.edges (edgeKeyOf ab)) (edgeKeyOf am) ⟨am⟩)
    (edgeKeyOf mb) ⟨mb⟩

/-- Modelled from the spec: the face storage after a split; a face whose
leading arc was one of the replaced arcs is redirected to its replacement. -/
def splitFaces (g : MeshGraph) (ab : ArcKey) (m : VertexKey) :
    List (FaceKey × Face) :=
  g.faces.map (fun p =>
    (p.1,
      if p.2.leadingArc = ab then ⟨⟨ab.source, m⟩⟩
      else if p.2.leadingArc = ab.intoOpposite then ⟨⟨ab.dest, m⟩⟩
      else p.2))

/-- Modelled from the spec: commit a validated split, inserting the new
vertex `m` and returning it along with the mutated storage. -/
def applySplit (g : MeshGraph) (ab : ArcKey) : MeshGraph × VertexKey :=
  let m := freshVertexKey g
  (⟨splitVertices g ab m, splitArcs g ab m, splitEdges g ab m, splitFaces g ab m⟩, m)

/-- `ArcView::split_with`: snapshot the split cache — the caller treats a
snapshot failure as an internal consistency violation (`expect_consistent`,
modelled by `panicked`) — then hand the storage to the mutation engine and
commit. -/
def splitWithM (g : MeshGraph) (ab : ArcKey) : OpResult VertexKey :=
  match EdgeSplitCache.snapshot g ab with
  | .error _ => .panicked
  | .ok c => .ok (applySplit g c.ab).1 (applySplit g c.ab).2

/-- Modelled from the spec: the removal edit cache holds the key of the
initiating arc. -/
structure EdgeRemoveCache where
  ab : ArcKey
deriving DecidableEq

/-- Modelled from the spec: `EdgeRemoveCache::snapshot` fails only when the
arc cannot be found. -/
def EdgeRemoveCache.snapshot (g : MeshGraph) (ab : ArcKey) :
    Except GraphError EdgeRemoveCache :=
  if ab ∈ keys g.arcs then .ok ⟨ab⟩ else .error .topologyNotFound

/-- Update the leading arc of vertex `v` to some remaining outgoing arc, or
remove the vertex when it has become disjoint (no outgoing arc remains). -/
def updateOrRemoveVertex (arcs : List (ArcKey × Arc))
    (vs : List (VertexKey × Vertex)) (v : VertexKey) : List (VertexKey × Vertex) :=
  match (keys arcs).find? (fun k => decide (k.source = v)) with
  | some out => assocUpdate vs v (fun _ => ⟨some out⟩)
  | none => assocRemove vs v

/-- The faces bordering either arc of the composite edge of `ab`; removal
cascades to them. -/
def removeCascadeFaces (g : MeshGraph) (ab : ArcKey) : List FaceKey :=
  ((assocLookup g.arcs ab).bind Arc.face).toList ++
    ((assocLookup g.arcs ab.intoOpposite).bind Arc.face).toList

/-- Modelled from the spec: payload of a surviving arc after removing the
composite edge of `ab` — it loses a cascaded face (becoming a boundary arc)
and the two rings that met at the removed edge are merged. -/
def removeArcPayload (g : MeshGraph) (ab : ArcKey) (q : Arc) : Arc :=
  let ba := ab.intoOpposite
  let pab := assocLookup g.arcs ab
  let pba := assocLookup g.arcs ba
  let q :=
    match q.face with
    | some f => if f ∈ removeCascadeFaces g ab then { q with face := none } else q
    | none => q
  let q := if q.next = some ab then { q with next := pba.bind Arc.next } else q
  let q := if q.next = some ba then { q with next := pab.bind Arc.next } else q
  let q := if q.previous = some ab then { q with previous := pba.bind Arc.previous } else q
  if q.previous = some ba then { q with previous := pab.bind Arc.previous } else q

/-- The arc storage after removing the composite edge of `ab`: both arcs are
deleted and the survivors are rewired. -/
def removeArcs (g : MeshGraph) (ab : ArcKey) : List (ArcKey × Arc) :=
  assocRemove
    (assocRemove (g.arcs.map (fun p => (p.1, removeArcPayload g ab p.2))) ab)
    ab.intoOpposite

/-- The vertex storage after removing the composite edge of `ab`: each
endpoint either receives a surviving outgoing arc as its leading arc or is
removed as disjoint. -/
def removeVertices (g : MeshGraph) (ab : ArcKey) : List (VertexKey × Vertex) :=
  updateOrRemoveVertex (removeArcs g ab)
    (updateOrRemoveVertex (removeArcs g ab) g.vertices ab.source) ab.dest

/-- Modelled from the spec: commit an edge removal.  Both arcs and the edge
are deleted, any face bordering either arc is deleted (its surviving arcs
become boundary arcs), the two rings that met at the edge are merged, and an
endpoint vertex left disjoint is removed. -/
def applyRemove (g : MeshGraph) (ab : ArcKey) : MeshGraph :=
  ⟨removeVertices g ab, removeArcs g ab, assocRemove g.edges (edgeKeyOf ab),
    (removeCascadeFaces g ab).foldl assocRemove g.faces⟩

/-- `ArcView::remove`: record the source vertex key, snapshot the cache
(failures are treated as internal errors — `expect_consistent`), commit, and
rebind the recorded source key, which yields `none` when that vertex was
removed. -/
def removeM (g : MeshGraph) (ab : ArcKey) : OpResult (Option VertexKey) :=
  match EdgeRemoveCache.snapshot g ab with
  | .error _ => .panicked
  | .ok c =>
    .ok (applyRemove g c.ab)
      (if ab.source ∈ keys (applyRemove g c.ab).vertices then some ab.source else none)

/-- Modelled from the spec: the bridge edit cache holds the source and
destination arc keys. -/
structure ArcBridgeCache where
  source : ArcKey
  dest : ArcKey
deriving DecidableEq

/-- Modelled from the spec: `ArcBridgeCache::snapshot` fails when the
destination arc cannot be found, when either arc is not a boundary arc, or
when the orientation of the arcs cannot close into a ring. -/
def ArcBridgeCache.snapshot (g : MeshGraph) (src dst : ArcKey) :
    Except GraphError ArcBridgeCache :=
  match assocLookup g.arcs src, assocLookup g.arcs dst with
  | some pa, some pb =>
    if pa.face.isSome ∨ pb.face.isSome then .error .topologyConflict
    else if dst = src ∨ dst = src.intoOpposite then .error .topologyMalformed
    else .ok ⟨src, dst⟩
  | _, _ => .error .topologyNotFound

/-- Modelled from the spec: commit a bridge of arcs A→B and C→D, inserting a
quadrilateral face over the ring A, B, C, D and creating the connecting arc
pairs B→C and D→A where they do not already exist. -/
def applyBridge (g : MeshGraph) (c : ArcBridgeCache) : MeshGraph × FaceKey :=
  let ab := c.source
  let cd := c.dest
  let bc : ArcKey := ⟨ab.dest, cd.source⟩
  let da : ArcKey := ⟨cd.dest, ab.source⟩
  let f := freshFaceKey g
  let g1 := ensureArcPair (ensureArcPair g bc) da
  let arcs2 := g1.arcs.map (fun p =>
    (p.1,
      if p.1 = ab then { p.2 with face := some f, next := some bc, previous := some da }
      else if p.1 = bc then { p.2 with face := some f, next := some cd, previous := some ab }
      else if p.1 = cd then { p.2 with face := some f, next := some da, previous := some bc }
      else if p.1 = da then { p.2 with face := some f, next := some ab, previous := some cd }
      else p.2))
  ({ g1 with arcs := arcs2, faces := assocInsert g1.faces f ⟨ab⟩ }, f)

/-- Resolve the destination selector of a bridge: an index selects the nth
arc within the source arc's ring, failing with `TopologyNotFound` when the
index does not resolve. -/
def resolveDestination (g : MeshGraph) (src : ArcKey) :
    Selector ArcKey → Except GraphError ArcKey
  | .byKey k => .ok k
  | .byIndex n =>
    match (ringArcs g src).get? n with
    | some k => .ok k
    | none => .error .topologyNotFound

/-- `ArcView::bridge`: resolve the destination, snapshot the bridge cache —
snapshot errors are propagated to the caller with the storage untouched —
then commit. -/
def bridgeM (g : MeshGraph) (src : ArcKey) (destination : Selector ArcKey) :
    OpResult FaceKey :=
  match resolveDestination g src destination with
  | .error e => .err g e
  | .ok dst =>
    match ArcBridgeCache.snapshot g src dst with
    | .error e => .err g e
    | .ok c => .ok (applyBridge g c).1 (applyBridge g c).2

/-- Modelled from the spec: the extrude edit cache holds the key of the
initiating arc (the translation is geometric and is abstracted away). -/
structure ArcExtrudeCache where
  ab : ArcKey
deriving DecidableEq

/-- Modelled from the spec: `ArcExtrudeCache::snapshot` fails when the arc
cannot be found or is not a boundary arc. -/
def ArcExtrudeCache.snapshot (g : MeshGraph) (ab : ArcKey) :
    Except GraphError ArcExtrudeCache :=
  match assocLookup g.arcs ab with
  | none => .error .topologyNotFound
  | some pa => if pa.face.isSome then .error .topologyConflict else .ok ⟨ab⟩

/-- Modelled from the spec: commit an extrusion of arc A→B — insert a
translated duplicate edge C→D over two fresh vertices, then bridge A→B with
C→D, returning the opposing arc C→D. -/
def applyExtrude (g : MeshGraph) (c : ArcExtrudeCache) : MeshGraph × ArcKey :=
  let cK := freshVertexKey g
  let g1 := { g with vertices := assocInsert g.vertices cK ⟨none⟩ }
  let dK := freshVertexKey g1
  let cd : ArcKey := ⟨cK, dK⟩
  let g2 :=
    { g1 with
      vertices := assocInsert g1.vertices dK ⟨some ⟨dK, cK⟩⟩ }
  let g3 :=
    { ensureArcPair g2 cd with
      vertices := assocUpdate (ensureArcPair g2 cd).vertices cK (fun _ => ⟨some cd⟩) }
  ((applyBridge g3 ⟨c.ab, cd⟩).1, cd)

/-- `ArcView::extrude`: snapshot the extrude cache; the caller applies
`expect_consistent` to the snapshot result, so a validation failure panics
(modelled by `panicked`) instead of returning the typed error; a successful
snapshot is committed. -/
def extrudeM (g : MeshGraph) (ab : ArcKey) : OpResult ArcKey :=
  match ArcExtrudeCache.snapshot g ab with
  | .error _ => .panicked
  | .ok c => .ok (applyExtrude g c).1 (applyExtrude g c).2

/-- A triangle over vertices 0, 1, 2 whose edge between 0 and 1 was already
removed: the four remaining arcs are boundary arcs forming one open ring. -/
def triOpen : MeshGraph where
  vertices :=
    [(vk 0, ⟨some (ak 0 2)⟩), (vk 1, ⟨some (ak 1 2)⟩), (vk 2, ⟨some (ak 2 0)⟩)]
  arcs :=
    [(ak 1 2, ⟨some (ak 2 0), some (ak 2 1), none, some (edgeKeyOf (ak 1 2))⟩),
      (ak 2 0, ⟨some (ak 0 2), some (ak 1 2), none, some (edgeKeyOf (ak 2 0))⟩),
      (ak 0 2, ⟨some (ak 2 1), some (ak 2 0), none, some (edgeKeyOf (ak 0 2))⟩),
      (ak 2 1, ⟨some (ak 1 2), some (ak 0 2), none, some (edgeKeyOf (ak 1 2))⟩)]
  edges := [(edgeKeyOf (ak 1 2), ⟨ak 1 2⟩), (edgeKeyOf (ak 0 2), ⟨ak 2 0⟩)]
  faces := []

/-- Index of the first occurrence of an element in a list. -/
def idxOf {α : Type} [DecidableEq α] : List α → α → Option Nat
  | [], _ => none
  | a :: rest, x => if a = x then some 0 else (idxOf rest x).map (· + 1)

/-- The arc keys of a face perimeter: consecutive vertex pairs, cyclically. -/
def perimeterArcs (p : List VertexKey) : List ArcKey :=
  (p.zip (p.rotateLeft 1)).map (fun q => ⟨q.1, q.2⟩)

/-- Modelled from the spec: the face insertion cache holds the validated
perimeter. -/
structure FaceInsertCache where
  perimeter : List VertexKey
deriving DecidableEq

/-- Modelled from the spec: validation of a face insertion.  A face must have
arity at least 3, every perimeter vertex must resolve, and no perimeter arc
may already be claimed by a face (at most one face per arc — this detects and
rejects non-manifold insertion, where an edge would border a third face). -/
def faceInsertSnapshot (g : MeshGraph) (p : List VertexKey) :
    Except GraphError FaceInsertCache :=
  if p.length < 3 then .error .arityNonPolygonal
  else if ∃ v ∈ p, v ∉ keys g.vertices then .error .topologyNotFound
  else if ∃ k ∈ perimeterArcs p, arcFaced g k = true then .error .topologyConflict
  else .ok ⟨p⟩

/-- Modelled from the spec: commit a face insertion — create missing arc
pairs and edges along the perimeter, wire the ring's `next`/`previous`
pointers, claim the ring arcs for the fresh face, and set the perimeter
vertices' leading arcs. -/
def applyFaceInsert (g : MeshGraph) (c : FaceInsertCache) : MeshGraph × FaceKey :=
  let p := c.perimeter
  let ring := perimeterArcs p
  let f := freshFaceKey g
  let k0 : ArcKey := ⟨⟨0⟩, ⟨0⟩⟩
  let g1 := ring.foldl ensureArcPair g
  let arcs2 := g1.arcs.map (fun q =>
    (q.1,
      match idxOf ring q.1 with
      | some i =>
        { q.2 with
          face := some f,
          next := some (ring.getD ((i + 1) % ring.length) k0),
          previous := some (ring.getD ((i + ring.length - 1) % ring.length) k0) }
      | none => q.2))
  let vertices2 := g1.vertices.map (fun q =>
    (q.1,
      match idxOf p q.1 with
      | some i => (⟨some (ring.getD i k0)⟩ : Vertex)
      | none => q.2))
  ({ g1 with
      vertices := vertices2, arcs := arcs2,
      faces := assocInsert g1.faces f ⟨ring.getD 0 k0⟩ }, f)

/-- `Mutation::insert_face` as observed by a caller holding the storage: on a
validation error the storage is returned untouched together with the error;
on success the committed storage is returned. -/
def insertFaceM (g : MeshGraph) (p : List VertexKey) : MeshGraph × Option GraphError :=
  match faceInsertSnapshot g p with
  | .error e => (g, some e)
  | .ok c => ((applyFaceInsert g c).1, none)

/-- `Mutation::insert_face` in the error-propagating form used by the bulk
constructors (`insert_face(...)?`). -/
def insertFaceE (g : MeshGraph) (p : List VertexKey) : Except GraphError MeshGraph :=
  match faceInsertSnapshot g p with
  | .error e => .error e
  | .ok c => .ok (applyFaceInsert g c).1

/-- Modelled from the spec: split one triangle off a face of arity greater
than 3 — insert the diagonal arc pair closing the triangle at the face's
leading arc and give the remainder of the ring back to the original face. -/
def splitOffTriangle (g : MeshGraph) (f : FaceKey) : MeshGraph :=
  match assocLookup g.faces f with
  | none => g
  | some face =>
    match ringArcs g face.leadingArc with
    | a0 :: a1 :: _ :: _ :: _ =>
      let d : ArcKey := ⟨a1.dest, a0.source⟩
      let fNew := freshFaceKey g
      let g1 := ensureArcPair g d
      let arcs2 := g1.arcs.map (fun p =>
        (p.1,
          if p.1 = a0 then { p.2 with face := some fNew, previous := some d }
          else if p.1 = a1 then { p.2 with face := some fNew, next := some d }
          else if p.1 = d then
            { p.2 with face := some fNew, next := some a0, previous := some a1 }
          else if p.1 = d.intoOpposite then
            { p.2 with
              face := some f,
              next := (assocLookup g.arcs a1).bind Arc.next,
              previous := (assocLookup g.arcs a0).bind Arc.previous }
          else p.2))
      let arcs3 := arcs2.map (fun p =>
        (p.1,
          if p.1 ≠ a1 ∧ p.2.next = some a0 then { p.2 with next := some d.intoOpposite }
          else if p.1 ≠ a0 ∧ p.2.previous = some a1 then
            { p.2 with previous := some d.intoOpposite }
          else p.2))
      { g1 with
        arcs := arcs3,
        faces :=
          assocInsert (assocUpdate g1.faces f (fun _ => ⟨d.intoOpposite⟩)) fNew ⟨a0⟩ }
    | _ => g

/-- Modelled from the spec: repeatedly split a triangle off the face until
only a triangle remains (the arity strictly decreases, so the face's initial
arity bounds the iteration). -/
def faceTriangulateFuel : Nat → MeshGraph → FaceKey → MeshGraph
  | 0, g, _ => g
  | fuel + 1, g, f =>
    if faceArity g f ≤ 3 then g else faceTriangulateFuel fuel (splitOffTriangle g f) f

/-- `FaceView::triangulate` on a face selected by key. -/
def faceTriangulate (g : MeshGraph) (f : FaceKey) : MeshGraph :=
  faceTriangulateFuel (faceArity g f) g f

/-- `MeshGraph::triangulate`: snapshot all face keys first, then triangulate
each of those faces in turn. -/
def MeshGraph.triangulate (g : MeshGraph) : MeshGraph :=
  (keys g.faces).foldl faceTriangulate g

/-- Modelled from the spec: `Mutation::insert_vertex` inserts a vertex with a
fresh key and returns the key. -/
def insertVertexM (g : MeshGraph) : MeshGraph × VertexKey :=
  let k := freshVertexKey g
  ({ g with vertices := assocInsert g.vertices k ⟨none⟩ }, k)

/-- `HashIndexer`: deduplicate vertex data by value, keeping first
occurrences in order.  Vertex data is abstracted to naturals. -/
def dedupVertices (l : List Nat) : List Nat :=
  l.foldl (fun acc v => if v ∈ acc then acc else acc ++ [v]) []

/-- `index_vertices` with a `HashIndexer`: map each polygon to indices into
the deduplicated vertex list. -/
def indexVertices (input : List (List Nat)) : List (List Nat) × List Nat :=
  let uniq := dedupVertices input.flatten
  (input.map (fun face => face.map (fun v => (idxOf uniq v).getD 0)), uniq)

/-- `MeshGraph::from_indexer`: insert every indexed vertex, then insert each
face, propagating the first insertion error; commit on success. -/
def fromIndexer (input : List (List Nat)) : Except GraphError MeshGraph :=
  let pair := indexVertices input
  let built := pair.2.foldl
    (fun acc _ =>
      ((insertVertexM acc.1).1, acc.2 ++ [(insertVertexM acc.1).2]))
    (MeshGraph.new, ([] : List VertexKey))
  pair.1.foldlM
    (fun g face => insertFaceE g (face.map (fun i => built.2.getD i ⟨0⟩))) built.1

/-- `FromIterator::from_iter` for `MeshGraph`:
`Self::from_indexer(input, HashIndexer::default()).unwrap_or_else(|_| Self::default())`. -/
def MeshGraph.fromIter (input : List (List Nat)) : MeshGraph :=
  match fromIndexer input with
  | .ok g => g
  | .error _ => MeshGraph.new

/-- `VertexCirculator` as built `From<ArcView>`: its inner iterator holds the
arc key's vertex pair `[a, b]`. -/
structure VertexCirculator where
  inner : List VertexKey
deriving DecidableEq

/-- `From<ArcView> for VertexCirculator`: the source and destination keys of
the arc, in that order. -/
def vertexCirculatorFromArc (ab : ArcKey) : VertexCirculator :=
  ⟨[ab.source, ab.dest]⟩

/-- `Iterator::size_hint` of the vertex circulator: the source returns
`(0, Some(self.inner.len()))`. -/
def VertexCirculator.sizeHint (c : VertexCirculator) : Nat × Option Nat :=
  (0, some c.inner.length)

/-- `Iterator::next` of the vertex circulator: pop the next key and rebind it
against the vertex storage; a failed rebind ends the iteration. -/
def circulatorNext (g : MeshGraph) (c : VertexCirculator) :
    Option (VertexKey × VertexCirculator) :=
  match c.inner with
  | [] => none
  | k :: rest =>
    match assocLookup g.vertices k with
    | some _ => some (k, ⟨rest⟩)
    | none => none

/-- The keys yielded by repeatedly calling `next` on the remaining inner
keys: each key is rebound against the vertex storage, and a failed rebind
ends the iteration. -/
def circulatorKeysToList (g : MeshGraph) : List VertexKey → List VertexKey
  | [] => []
  | k :: rest =>
    match assocLookup g.vertices k with
    | some _ => k :: circulatorKeysToList g rest
    | none => []

/-- The sequence of vertices yielded by exhausting the circulator. -/
def circulatorToList (g : MeshGraph) (c : VertexCirculator) : List VertexKey :=
  circulatorKeysToList g c.inner

instance {E A : Type} [DecidableEq E] [DecidableEq A] : DecidableEq (Except E A) :=
  fun x y =>
    match x, y with
    | .error a, .error b =>
      if h : a = b then isTrue (h ▸ rfl) else isFalse (fun hh => h (Except.error.inj hh))
    | .error _, .ok _ => isFalse (fun hh => Except.noConfusion hh)
    | .ok _, .error _ => isFalse (fun hh => Except.noConfusion hh)
    | .ok a, .ok b =>
      if h : a = b then isTrue (h ▸ rfl) else isFalse (fun hh => h (Except.ok.inj hh))

/-- The default `ExactSizeIterator::len`: assert that the size hint's lower
and upper bounds agree and return them; `none` models the assertion failing
(a panic). -/
def exactSizeLen (h : Nat × Option Nat) : Option Nat :=
  match h with
  | (lo, some hi) => if hi = lo then some lo else none
  | (_, none) => none

/-! ## Storage lemmas -/

theorem keys_cons {K V : Type} (p : K × V) (l : List (K × V)) :
    keys (p :: l) = p.1 :: keys l :=
  rfl

theorem mem_keys_assocRemove {K V : Type} [DecidableEq K] (l : List (K × V)) (k a : K) :
    a ∈ keys (assocRemove l k) ↔ a ∈ keys l ∧ a ≠ k := by
  induction l with
  | nil => simp [assocRemove, keys]
  | cons p rest ih =>
    by_cases h : p.1 = k
    · rw [assocRemove, if_pos h, ih, keys_cons, List.mem_cons]
      constructor
      · exact fun hx => ⟨Or.inr hx.1, hx.2⟩
      · rintro ⟨ha | ha, hk⟩
        · exact absurd (h ▸ ha) hk
        · exact ⟨ha, hk⟩
    · rw [assocRemove, if_neg h, keys_cons, List.mem_cons, ih, keys_cons, List.mem_cons]
      constructor
      · rintro (ha | ⟨ha, hk⟩)
        · exact ⟨Or.inl ha, fun hh => h ((ha ▸ hh : p.1 = k))⟩
        · exact ⟨Or.inr ha, hk⟩
      · rintro ⟨ha | ha, hk⟩
        · exact Or.inl ha
        · exact Or.inr ⟨ha, hk⟩

theorem assocRemove_sublist {K V : Type} [DecidableEq K] (l : List (K × V)) (k : K) :
    (assocRemove l k).Sublist l := by
  induction l with
  | nil => exact List.Sublist.refl _
  | cons p rest ih =>
    rw [assocRemove]
    by_cases h : p.1 = k
    · rw [if_pos h]
      exact ih.trans (List.sublist_cons_self p rest)
    · rw [if_neg h]
      exact ih.cons₂ p

theorem nodup_keys_assocRemove {K V : Type} [DecidableEq K] (l : List (K × V)) (k : K)
    (h : (keys l).Nodup) : (keys (assocRemove l k)).Nodup :=
  ((assocRemove_sublist l k).map Prod.fst).nodup h

theorem assocRemove_eq_of_not_mem {K V : Type} [DecidableEq K] {l : List (K × V)} {k : K}
    (h : k ∉ keys l) : assocRemove l k = l := by
  induction l with
  | nil => rfl
  | cons p rest ih =>
    rw [keys_cons, List.mem_cons, not_or] at h
    rw [assocRemove, if_neg (fun hh => h.1 hh.symm), ih h.2]

theorem length_assocRemove_of_mem {K V : Type} [DecidableEq K] {l : List (K × V)} {k : K}
    (hn : (keys l).Nodup) (h : k ∈ keys l) :
    (assocRemove l k).length + 1 = l.length := by
  induction l with
  | nil => cases h
  | cons p rest ih =>
    rw [keys_cons, List.nodup_cons] at hn
    rw [keys_cons, List.mem_cons] at h
    rw [assocRemove]
    by_cases h1 : p.1 = k
    · rw [if_pos h1, assocRemove_eq_of_not_mem (h1 ▸ hn.1)]
      rfl
    · have h2 : k ∈ keys rest := by
        rcases h with h | h
        · exact absurd h.symm h1
        · exact h
      rw [if_neg h1, List.length_cons, List.length_cons, ih hn.2 h2]

theorem mem_keys_assocInsert {K V : Type} [DecidableEq K] (l : List (K × V)) (k a : K)
    (v : V) : a ∈ keys (assocInsert l k v) ↔ a = k ∨ (a ∈ keys l ∧ a ≠ k) := by
  rw [assocInsert, keys_cons, List.mem_cons, mem_keys_assocRemove]

theorem length_assocInsert_of_not_mem {K V : Type} [DecidableEq K] {l : List (K × V)}
    {k : K} (h : k ∉ keys l) (v : V) :
    (assocInsert l k v).length = l.length + 1 := by
  rw [assocInsert, List.length_cons, assocRemove_eq_of_not_mem h]

theorem keys_map_of_fst_eq {K V W : Type} (l : List (K × V)) (f : K × V → K × W)
    (h : ∀ p, (f p).1 = p.1) : keys (l.map f) = keys l := by
  induction l with
  | nil => rfl
  | cons p rest ih =>
    rw [List.map_cons, keys_cons, keys_cons, h p, ih]

theorem keys_assocUpdate {K V : Type} [DecidableEq K] (l : List (K × V)) (k : K)
    (f : V → V) : keys (assocUpdate l k f) = keys l := by
  unfold assocUpdate
  exact keys_map_of_fst_eq l _ (fun p => rfl)

theorem assocLookup_isSome_iff {K V : Type} [DecidableEq K] (l : List (K × V)) (k : K) :
    (assocLookup l k).isSome = true ↔ k ∈ keys l := by
  induction l with
  | nil => simp [assocLookup, keys]
  | cons p rest ih =>
    rw [assocLookup, keys_cons, List.mem_cons]
    by_cases h : p.1 = k
    · simp [h]
    · rw [if_neg h, ih]
      constructor
      · exact fun hm => Or.inr hm
      · rintro (hm | hm)
        · exact absurd hm.symm h
        · exact hm

theorem assocLookup_eq_some_of_mem {K V : Type} [DecidableEq K] {l : List (K × V)}
    {k : K} (h : k ∈ keys l) : ∃ v, assocLookup l k = some v :=
  Option.isSome_iff_exists.mp ((assocLookup_isSome_iff l k).mpr h)

theorem le_foldr_max (l : List Nat) (x : Nat) (h : x ∈ l) : x ≤ l.foldr Nat.max 0 := by
  induction l with
  | nil => cases h
  | cons a rest ih =>
    rcases List.mem_cons.mp h with h | h
    · subst h
      exact Nat.le_max_left _ _
    · exact (ih h).trans (Nat.le_max_right _ _)

theorem freshVertexKey_not_mem (g : MeshGraph) : freshVertexKey g ∉ keys g.vertices := by
  intro h
  unfold keys at h
  rcases List.mem_map.mp h with ⟨p, hp, he⟩
  have h1 : p.1.key ∈ g.vertices.map (fun q => q.1.key) :=
    List.mem_map.mpr ⟨p, hp, rfl⟩
  have h2 := le_foldr_max _ _ h1
  rw [he] at h2
  simp only [freshVertexKey] at h2
  omega

/-! ## Lemmas about edge removal -/

theorem mem_keys_updateOrRemoveVertex_ne (arcs : List (ArcKey × Arc))
    (vs : List (VertexKey × Vertex)) (v x : VertexKey) (h : x ≠ v) :
    x ∈ keys (updateOrRemoveVertex arcs vs v) ↔ x ∈ keys vs := by
  cases hf : (keys arcs).find? (fun k => decide (k.source = v)) with
  | some out => simp only [updateOrRemoveVertex, hf, keys_assocUpdate]
  | none =>
    simp only [updateOrRemoveVertex, hf, mem_keys_assocRemove]
    exact ⟨fun hh => hh.1, fun hh => ⟨hh, h⟩⟩

theorem mem_keys_updateOrRemoveVertex_self (arcs : List (ArcKey × Arc))
    (vs : List (VertexKey × Vertex)) (v : VertexKey) :
    v ∈ keys (updateOrRemoveVertex arcs vs v) ↔
      v ∈ keys vs ∧ ∃ k ∈ keys arcs, k.source = v := by
  cases hf : (keys arcs).find? (fun k => decide (k.source = v)) with
  | some out =>
    simp only [updateOrRemoveVertex, hf, keys_assocUpdate]
    have h2 := List.find?_some hf
    simp only [decide_eq_true_eq] at h2
    have h1 : ∃ k ∈ keys arcs, k.source = v :=
      ⟨out, List.mem_of_find?_eq_some hf, h2⟩
    exact ⟨fun hh => ⟨hh, h1⟩, fun hh => hh.1⟩
  | none =>
    simp only [updateOrRemoveVertex, hf, mem_keys_assocRemove]
    constructor
    · rintro ⟨-, hh⟩
      exact absurd rfl hh
    · rintro ⟨hv, k, hk, hks⟩
      have h4 : ((keys arcs).find? (fun k => decide (k.source = v))).isSome = true :=
        List.find?_isSome.mpr ⟨k, hk, decide_eq_true hks⟩
      rw [hf] at h4
      cases h4

theorem mem_keys_removeArcs (g : MeshGraph) (ab x : ArcKey) :
    x ∈ keys (removeArcs g ab) ↔
      (x ∈ keys g.arcs ∧ x ≠ ab) ∧ x ≠ ab.intoOpposite := by
  unfold removeArcs
  rw [mem_keys_assocRemove, mem_keys_assocRemove,
    keys_map_of_fst_eq g.arcs (fun p => (p.1, removeArcPayload g ab p.2)) (fun p => rfl)]

theorem source_mem_removeVertices (g : MeshGraph) (ab : ArcKey)
    (hg : Consistent g) (hab : ab ∈ keys g.arcs) :
    ab.source ∈ keys (removeVertices g ab) ↔
      ∃ k ∈ keys g.arcs, k.source = ab.source ∧ k ≠ ab := by
  obtain ⟨-, -, -, -, -, hend⟩ := hg
  obtain ⟨hsrc, -, hne⟩ := hend ab hab
  unfold removeVertices
  rw [mem_keys_updateOrRemoveVertex_ne _ _ _ _ hne,
    mem_keys_updateOrRemoveVertex_self]
  constructor
  · rintro ⟨-, k, hk, hks⟩
    rw [mem_keys_removeArcs] at hk
    exact ⟨k, hk.1.1, hks, hk.1.2⟩
  · rintro ⟨k, hk, hks, hkne⟩
    refine ⟨hsrc, k, ?_, hks⟩
    rw [mem_keys_removeArcs]
    refine ⟨⟨hk, hkne⟩, ?_⟩
    intro hKba
    rw [hKba] at hks
    exact hne hks.symm

/-! ## Lemmas about edge splitting -/

theorem length_splitVertices (g : MeshGraph) (ab : ArcKey) (m : VertexKey)
    (hm : m ∉ keys g.vertices) :
    (splitVertices g ab m).length = g.vertices.length + 1 := by
  unfold splitVertices
  have h1 : m ∉ keys (g.vertices.map (fun p => (p.1, splitVertexPayload ab m p.2))) := by
    rw [keys_map_of_fst_eq g.vertices
      (fun p => (p.1, splitVertexPayload ab m p.2)) (fun p => rfl)]
    exact hm
  rw [length_assocInsert_of_not_mem h1, List.length_map]

theorem length_splitArcs (g : MeshGraph) (ab : ArcKey) (m : VertexKey)
    (hg : Consistent g) (hab : ab ∈ keys g.arcs) (hm : m ∉ keys g.vertices) :
    (splitArcs g ab m).length = g.arcs.length + 2 := by
  obtain ⟨-, hna, -, -, hopp, hend⟩ := hg
  obtain ⟨hsrc, hdst, hne⟩ := hend ab hab
  have hma : m ≠ ab.source := fun hh => hm (hh ▸ hsrc)
  have hmb : m ≠ ab.dest := fun hh => hm (hh ▸ hdst)
  have hkeys :
      keys (g.arcs.map (fun p => (p.1, splitRewirePayload ab m p.2))) = keys g.arcs :=
    keys_map_of_fst_eq g.arcs (fun p => (p.1, splitRewirePayload ab m p.2)) (fun p => rfl)
  have hab0 : ab ∈ keys (g.arcs.map (fun p => (p.1, splitRewirePayload ab m p.2))) := by
    rw [hkeys]; exact hab
  have hnodup0 :
      (keys (g.arcs.map (fun p => (p.1, splitRewirePayload ab m p.2)))).Nodup := by
    rw [hkeys]; exact hna
  have hbane : ab.intoOpposite ≠ ab := fun hh => hne (congrArg ArcKey.source hh).symm
  have hba1 :
      ab.intoOpposite ∈
        keys (assocRemove (g.arcs.map (fun p => (p.1, splitRewirePayload ab m p.2))) ab) := by
    rw [mem_keys_assocRemove, hkeys]
    exact ⟨hopp ab hab, hbane⟩
  have hL1 :
      (assocRemove (g.arcs.map (fun p => (p.1, splitRewirePayload ab m p.2))) ab).length + 1 =
        g.arcs.length := by
    rw [length_assocRemove_of_mem hnodup0 hab0, List.length_map]
  have hL2 :
      (assocRemove
          (assocRemove (g.arcs.map (fun p => (p.1, splitRewirePayload ab m p.2))) ab)
          ab.intoOpposite).length + 1 =
        (assocRemove (g.arcs.map (fun p => (p.1, splitRewirePayload ab m p.2))) ab).length :=
    length_assocRemove_of_mem (nodup_keys_assocRemove _ _ hnodup0) hba1
  have hbase :
      ∀ x : ArcKey,
        x ∈ keys (assocRemove
            (assocRemove (g.arcs.map (fun p => (p.1, splitRewirePayload ab m p.2))) ab)
            ab.intoOpposite) →
          x.source ∈ keys g.vertices ∧ x.dest ∈ keys g.vertices := by
    intro x hx
    rw [mem_keys_assocRemove, mem_keys_assocRemove, hkeys] at hx
    exact ⟨(hend x hx.1.1).1, (hend x hx.1.1).2.1⟩
  have hAM : (⟨ab.source, m⟩ : ArcKey) ∉ keys (assocRemove
      (assocRemove (g.arcs.map (fun p => (p.1, splitRewirePayload ab m p.2))) ab)
      ab.intoOpposite) :=
    fun hh => hm (hbase _ hh).2
  have hMB : (⟨m, ab.dest⟩ : ArcKey) ∉ keys (assocRemove
      (assocRemove (g.arcs.map (fun p => (p.1, splitRewirePayload ab m p.2))) ab)
      ab.intoOpposite) :=
    fun hh => hm (hbase _ hh).1
  have hBM : (⟨ab.dest, m⟩ : ArcKey) ∉ keys (assocRemove
      (assocRemove (g.arcs.map (fun p => (p.1, splitRewirePayload ab m p.2))) ab)
      ab.intoOpposite) :=
    fun hh => hm (hbase _ hh).2
  have hMA : (⟨m, ab.source⟩ : ArcKey) ∉ keys (assocRemove
      (assocRemove (g.arcs.map (fun p => (p.1, splitRewirePayload ab m p.2))) ab)
      ab.intoOpposite) :=
    fun hh => hm (hbase _ hh).1
  have hne1 : (⟨m, ab.dest⟩ : ArcKey) ≠ ⟨ab.source, m⟩ :=
    fun hh => hma (congrArg ArcKey.source hh)
  have hne2 : (⟨ab.dest, m⟩ : ArcKey) ≠ ⟨ab.source, m⟩ :=
    fun hh => hne (congrArg ArcKey.source hh).symm
  have hne3 : (⟨ab.dest, m⟩ : ArcKey) ≠ ⟨m, ab.dest⟩ :=
    fun hh => hmb (congrArg ArcKey.source hh).symm
  have hne4 : (⟨m, ab.source⟩ : ArcKey) ≠ ⟨ab.source, m⟩ :=
    fun hh => hma (congrArg ArcKey.source hh)
  have hne5 : (⟨m, ab.source⟩ : ArcKey) ≠ ⟨m, ab.dest⟩ :=
    fun hh => hne (congrArg ArcKey.dest hh)
  have hne6 : (⟨m, ab.source⟩ : ArcKey) ≠ ⟨ab.dest, m⟩ :=
    fun hh => hmb (congrArg ArcKey.source hh)
  unfold splitArcs
  rw [length_assocInsert_of_not_mem (by
    rw [mem_keys_assocInsert]
    rintro (hh | ⟨hh, -⟩)
    · exact hne6 hh
    · rw [mem_keys_assocInsert] at hh
      rcases hh with hh | ⟨hh, -⟩
      · exact hne5 hh
      · rw [mem_keys_assocInsert] at hh
        rcases hh with hh | ⟨hh, -⟩
        · exact hne4 hh
        · exact hMA hh)]
  rw [length_assocInsert_of_not_mem (by
    rw [mem_keys_assocInsert]
    rintro (hh | ⟨hh, -⟩)
    · exact hne3 hh
    · rw [mem_keys_assocInsert] at hh
      rcases hh with hh | ⟨hh, -⟩
      · exact hne2 hh
      · exact hBM hh)]
  rw [length_assocInsert_of_not_mem (by
    rw [mem_keys_assocInsert]
    rintro (hh | ⟨hh, -⟩)
    · exact hne1 hh
    · exact hMB hh)]
  rw [length_assocInsert_of_not_mem hAM]
  omega

/-! ## Lemmas about triangulation -/

theorem faceTriangulate_eq_of_le (g : MeshGraph) (k : FaceKey)
    (h : faceArity g k ≤ 3) : faceTriangulate g k = g := by
  rw [faceTriangulate]
  cases hA : faceArity g k with
  | zero => rfl
  | succ n =>
    rw [faceTriangulateFuel, if_pos h]

theorem foldl_faceTriangulate_id (g : MeshGraph) (ks : List FaceKey)
    (h : ∀ f ∈ ks, faceArity g f ≤ 3) : ks.foldl faceTriangulate g = g := by
  induction ks with
  | nil => rfl
  | cons k ks ih =>
    rw [List.foldl_cons, faceTriangulate_eq_of_le g k (h k (List.mem_cons_self k ks))]
    exact ih (fun f hf => h f (List.mem_cons_of_mem k hf))

/-! ## Claim theorems -/

/-- Claim C1: for the compound edits invoked through a mutable view, the
claimed dichotomy — a surfaced typed error with untouched storage, or a
successful commit — fails for `extrude`: on a validation failure (here a
non-boundary arc of a consistent two-triangle graph) the caller applies
`expect_consistent` to the snapshot result and panics, so no typed error is
surfaced and no commit happens. -/
theorem extrude_validation_failure_panics :
    arcFaced twoTri (ak 0 1) = true ∧
      extrudeM twoTri (ak 0 1) = OpResult.panicked ∧
      ¬∃ e : GraphError, extrudeM twoTri (ak 0 1) = OpResult.err twoTri e := by
  refine ⟨by decide, by decide, ?_⟩
  rintro ⟨e, he⟩
  have h0 : extrudeM twoTri (ak 0 1) = OpResult.panicked := by decide
  rw [h0] at he
  exact OpResult.noConfusion he

/-- Claim C2: on a non-boundary arc, `bridge` (with the arc as source or as
destination) returns the typed conflict error with the storage unchanged, but
`extrude` panics (`expect_consistent` on the snapshot result) instead of
returning the documented typed error. -/
theorem nonboundary_bridge_errors_extrude_panics :
    arcFaced quad (ak 0 1) = true ∧
      bridgeM quad (ak 0 1) (Selector.byKey (ak 1 0)) =
        OpResult.err quad GraphError.topologyConflict ∧
      bridgeM quad (ak 1 0) (Selector.byKey (ak 1 2)) =
        OpResult.err quad GraphError.topologyConflict ∧
      extrudeM quad (ak 0 1) = OpResult.panicked := by
  decide

/-- Claim C3 (amended): removing the composite edge of an arc A→B commits the
complete removal and returns the *source* vertex A exactly when some other
arc still leaves A; otherwise it returns `none` — even when the destination
endpoint survives. -/
theorem remove_returns_source (g : MeshGraph) (ab : ArcKey)
    (hg : Consistent g) (hab : ab ∈ keys g.arcs) :
    removeM g ab =
      OpResult.ok (applyRemove g ab)
        (if ∃ k ∈ keys g.arcs, k.source = ab.source ∧ k ≠ ab then some ab.source
          else none) := by
  have hsnap : EdgeRemoveCache.snapshot g ab = .ok ⟨ab⟩ := by
    simp only [EdgeRemoveCache.snapshot, if_pos hab]
  have hiff : ab.source ∈ keys (applyRemove g ab).vertices ↔
      ∃ k ∈ keys g.arcs, k.source = ab.source ∧ k ≠ ab :=
    source_mem_removeVertices g ab hg hab
  simp only [removeM, hsnap]
  rw [if_congr hiff rfl rfl]

/-- Claim C3 (witness): the amended statement applied to a concrete graph. -/
theorem remove_returns_source_witness :
    Consistent triOpen ∧ ak 0 2 ∈ keys triOpen.arcs ∧
      removeM triOpen (ak 0 2) =
        OpResult.ok (applyRemove triOpen (ak 0 2))
          (if ∃ k ∈ keys triOpen.arcs, k.source = (ak 0 2).source ∧ k ≠ ak 0 2 then
              some (ak 0 2).source
            else none) :=
  ⟨by decide, by decide, remove_returns_source triOpen (ak 0 2) (by decide) (by decide)⟩

/-- Claim C3 (counterexample): in the open triangle, removing the arc 0→2
leaves the destination vertex 2 alive, yet the operation returns `none` (the
source vertex 0 became disjoint) — not the surviving endpoint as claimed. -/
theorem remove_source_none_despite_surviving_destination :
    (ak 0 2).dest = vk 2 ∧
      removeM triOpen (ak 0 2) = OpResult.ok (applyRemove triOpen (ak 0 2)) none ∧
      vk 2 ∈ keys (applyRemove triOpen (ak 0 2)).vertices := by
  decide

/-- Claim C4: a graph whose two faces both have arity 3 is reported as
`NonUniform(3, 3)` by `MeshGraph::arity`, not as `Uniform(3)` as the claim
and the function's own documentation state (itertools' `minmax` only yields
`OneElement` for exactly one element). -/
theorem arity_uniform_faces_reported_nonuniform :
    (keys twoTri.faces).map (faceArity twoTri) = [3, 3] ∧
      twoTri.faceCount = 2 ∧
      MeshGraph.arity twoTri = Arity.nonUniform 3 3 ∧
      MeshGraph.arity twoTri ≠ Arity.uniform 3 := by
  decide

/-- Claim C5: splitting an arc that exists in a consistent graph always
succeeds once validated, and increases the vertex count by exactly 1 and the
arc count by exactly 2. -/
theorem split_count (g : MeshGraph) (ab : ArcKey) (hg : Consistent g)
    (hab : ab ∈ keys g.arcs) :
    splitWithM g ab = OpResult.ok (applySplit g ab).1 (applySplit g ab).2 ∧
      (applySplit g ab).1.vertexCount = g.vertexCount + 1 ∧
      (applySplit g ab).1.arcCount = g.arcCount + 2 := by
  have hsnap : EdgeSplitCache.snapshot g ab = .ok ⟨ab⟩ := by
    simp only [EdgeSplitCache.snapshot, if_pos hab]
  refine ⟨by simp only [splitWithM, hsnap], ?_, ?_⟩
  · show (splitVertices g ab (freshVertexKey g)).length = g.vertices.length + 1
    exact length_splitVertices g ab _ (freshVertexKey_not_mem g)
  · show (splitArcs g ab (freshVertexKey g)).length = g.arcs.length + 2
    exact length_splitArcs g ab _ hg hab (freshVertexKey_not_mem g)

/-- Claim C5 (witness): the split-count statement applied to a concrete
graph. -/
theorem split_count_witness :
    Consistent twoTri ∧ ak 0 1 ∈ keys twoTri.arcs ∧
      (splitWithM twoTri (ak 0 1) =
          OpResult.ok (applySplit twoTri (ak 0 1)).1 (applySplit twoTri (ak 0 1)).2 ∧
        (applySplit twoTri (ak 0 1)).1.vertexCount = twoTri.vertexCount + 1 ∧
        (applySplit twoTri (ak 0 1)).1.arcCount = twoTri.arcCount + 2) :=
  ⟨by decide, by decide, split_count twoTri (ak 0 1) (by decide) (by decide)⟩

/-- Claim C6: inserting a face whose perimeter traverses an edge that is
already bordered by two faces fails at validation with the conflict error,
and the vertex, arc, and face counts are unchanged by the failed
insertion. -/
theorem insert_face_nonmanifold_conflict (g : MeshGraph) (p : List VertexKey)
    (a b : VertexKey) (hg : Consistent g)
    (hab : arcFaced g ⟨a, b⟩ = true) (hba : arcFaced g ⟨b, a⟩ = true)
    (hp : (⟨a, b⟩ : ArcKey) ∈ perimeterArcs p ∨ (⟨b, a⟩ : ArcKey) ∈ perimeterArcs p)
    (hlen : 3 ≤ p.length) (hverts : ∀ v ∈ p, v ∈ keys g.vertices) :
    insertFaceM g p = (g, some GraphError.topologyConflict) ∧
      (insertFaceM g p).1.vertexCount = g.vertexCount ∧
      (insertFaceM g p).1.arcCount = g.arcCount ∧
      (insertFaceM g p).1.faceCount = g.faceCount := by
  have h1 : ¬p.length < 3 := by omega
  have h2 : ¬∃ v ∈ p, v ∉ keys g.vertices := by
    rintro ⟨v, hv, hnv⟩
    exact hnv (hverts v hv)
  have h3 : ∃ k ∈ perimeterArcs p, arcFaced g k = true := by
    rcases hp with hp | hp
    · exact ⟨_, hp, hab⟩
    · exact ⟨_, hp, hba⟩
  have hsnap : faceInsertSnapshot g p = .error .topologyConflict := by
    rw [faceInsertSnapshot, if_neg h1, if_neg h2, if_pos h3]
  have h4 : insertFaceM g p = (g, some GraphError.topologyConflict) := by
    simp only [insertFaceM, hsnap]
  exact ⟨h4, by rw [h4], by rw [h4], by rw [h4]⟩

/-- Claim C6 (witness): the conflict statement applied to the two-triangle
graph, inserting a third face over the doubly-bordered edge between vertices
0 and 2. -/
theorem insert_face_nonmanifold_conflict_witness :
    Consistent twoTri ∧ arcFaced twoTri (ak 0 2) = true ∧
      arcFaced twoTri (ak 2 0) = true ∧
      (insertFaceM twoTri [vk 0, vk 2, vk 1] =
          (twoTri, some GraphError.topologyConflict) ∧
        (insertFaceM twoTri [vk 0, vk 2, vk 1]).1.vertexCount = twoTri.vertexCount ∧
        (insertFaceM twoTri [vk 0, vk 2, vk 1]).1.arcCount = twoTri.arcCount ∧
        (insertFaceM twoTri [vk 0, vk 2, vk 1]).1.faceCount = twoTri.faceCount) :=
  ⟨by decide, by decide, by decide,
    insert_face_nonmanifold_conflict twoTri [vk 0, vk 2, vk 1] (vk 0) (vk 2)
      (by decide) (by decide) (by decide) (Or.inl (by decide)) (by decide) (by decide)⟩

/-- Claim C7: an arc key's opposite is the swapped pair, computed from the
key alone; taking the opposite twice is the identity, and in a consistent
graph navigating to the opposite arc and back returns to the original arc. -/
theorem opposite_arc_involution (g : MeshGraph) (k : ArcKey)
    (hg : Consistent g) (hk : k ∈ keys g.arcs) :
    (∀ j : ArcKey, j.intoOpposite.intoOpposite = j) ∧
      reachableOppositeArc g k = some k.intoOpposite ∧
      reachableOppositeArc g k.intoOpposite = some k := by
  obtain ⟨-, -, -, -, hopp, -⟩ := hg
  refine ⟨fun j => rfl, ?_, ?_⟩
  · rw [reachableOppositeArc, if_pos (hopp k hk)]
  · rw [reachableOppositeArc]
    have h1 : k.intoOpposite.intoOpposite = k := rfl
    rw [h1, if_pos hk]

/-- Claim C7 (witness): the involution statement applied to a concrete
graph. -/
theorem opposite_arc_involution_witness :
    Consistent twoTri ∧ ak 0 1 ∈ keys twoTri.arcs ∧
      ((∀ j : ArcKey, j.intoOpposite.intoOpposite = j) ∧
        reachableOppositeArc twoTri (ak 0 1) = some (ak 0 1).intoOpposite ∧
        reachableOppositeArc twoTri (ak 0 1).intoOpposite = some (ak 0 1)) :=
  ⟨by decide, by decide, opposite_arc_involution twoTri (ak 0 1) (by decide) (by decide)⟩

/-- Claim C8: triangulating a consistent graph whose faces all already have
arity 3 leaves the vertex, arc, edge, and face counts unchanged. -/
theorem triangulate_counts (g : MeshGraph) (hg : Consistent g)
    (h : ∀ f ∈ keys g.faces, faceArity g f = 3) :
    g.triangulate.vertexCount = g.vertexCount ∧
      g.triangulate.arcCount = g.arcCount ∧
      g.triangulate.edgeCount = g.edgeCount ∧
      g.triangulate.faceCount = g.faceCount := by
  have h1 : g.triangulate = g :=
    foldl_faceTriangulate_id g (keys g.faces) (fun f hf => (h f hf).le)
  exact ⟨by rw [h1], by rw [h1], by rw [h1], by rw [h1]⟩

/-- Claim C8 (witness): triangulation of the concrete two-triangle graph
keeps all counts. -/
theorem triangulate_counts_witness :
    Consistent twoTri ∧ (∀ f ∈ keys twoTri.faces, faceArity twoTri f = 3) ∧
      (twoTri.triangulate.vertexCount = twoTri.vertexCount ∧
        twoTri.triangulate.arcCount = twoTri.arcCount ∧
        twoTri.triangulate.edgeCount = twoTri.edgeCount ∧
        twoTri.triangulate.faceCount = twoTri.faceCount) :=
  ⟨by decide, by decide, triangulate_counts twoTri (by decide) (by decide)⟩

/-- Claim C9 (amended): in a consistent graph the vertex circulator of an arc
yields exactly the arc's source and destination, in that order, and the
*upper* bound of its size hint is the number of items yielded — the reported
lower bound is 0. -/
theorem vertex_circulator_yields_endpoints (g : MeshGraph) (ab : ArcKey)
    (hg : Consistent g) (hab : ab ∈ keys g.arcs) :
    circulatorToList g (vertexCirculatorFromArc ab) = [ab.source, ab.dest] ∧
      (vertexCirculatorFromArc ab).sizeHint =
        (0, some (circulatorToList g (vertexCirculatorFromArc ab)).length) := by
  obtain ⟨-, -, -, -, -, hend⟩ := hg
  obtain ⟨hsrc, hdst, -⟩ := hend ab hab
  obtain ⟨v1, hv1⟩ := assocLookup_eq_some_of_mem hsrc
  obtain ⟨v2, hv2⟩ := assocLookup_eq_some_of_mem hdst
  have h1 : circulatorToList g (vertexCirculatorFromArc ab) = [ab.source, ab.dest] := by
    simp only [vertexCirculatorFromArc, circulatorToList, circulatorKeysToList, hv1, hv2]
  refine ⟨h1, ?_⟩
  rw [h1]
  rfl

/-- Claim C9 (witness): the amended circulator statement applied to a
concrete graph. -/
theorem vertex_circulator_yields_endpoints_witness :
    Consistent twoTri ∧ ak 0 1 ∈ keys twoTri.arcs ∧
      (circulatorToList twoTri (vertexCirculatorFromArc (ak 0 1)) =
          [(ak 0 1).source, (ak 0 1).dest] ∧
        (vertexCirculatorFromArc (ak 0 1)).sizeHint =
          (0, some (circulatorToList twoTri (vertexCirculatorFromArc (ak 0 1))).length)) :=
  ⟨by decide, by decide,
    vertex_circulator_yields_endpoints twoTri (ak 0 1) (by decide) (by decide)⟩

/-- Claim C9 (counterexample): the circulator yields 2 items, but its size
hint is `(0, some 2)`, so the exact size reported through the default
`ExactSizeIterator::len` (which asserts that the bounds agree) is not 2 — the
assertion fails. -/
theorem vertex_circulator_exact_size_disagrees :
    (circulatorToList twoTri (vertexCirculatorFromArc (ak 0 1))).length = 2 ∧
      (vertexCirculatorFromArc (ak 0 1)).sizeHint = (0, some 2) ∧
      (vertexCirculatorFromArc (ak 0 1)).sizeHint ≠ (2, some 2) ∧
      exactSizeLen (vertexCirculatorFromArc (ak 0 1)).sizeHint = none := by
  decide

/-- Claim C10: whenever the indexed construction fails, collecting polygons
into a graph silently yields the empty default graph — no error and no
element reaches the caller. -/
theorem from_iter_error_yields_default (input : List (List Nat)) (e : GraphError)
    (h : fromIndexer input = .error e) :
    MeshGraph.fromIter input = MeshGraph.new ∧
      (MeshGraph.fromIter input).vertexCount = 0 ∧
      (MeshGraph.fromIter input).arcCount = 0 ∧
      (MeshGraph.fromIter input).edgeCount = 0 ∧
      (MeshGraph.fromIter input).faceCount = 0 := by
  have h1 : MeshGraph.fromIter input = MeshGraph.new := by
    simp only [MeshGraph.fromIter, h]
  exact ⟨h1, by rw [h1]; rfl, by rw [h1]; rfl, by rw [h1]; rfl, by rw [h1]; rfl⟩

/-- Claim C10 (witness): the non-manifold triangle fan fails with the
conflict error, and collecting it yields the empty graph. -/
theorem from_iter_error_yields_default_witness :
    fromIndexer [[0, 1, 2], [0, 1, 3], [0, 1, 4]] =
        .error GraphError.topologyConflict ∧
      (MeshGraph.fromIter [[0, 1, 2], [0, 1, 3], [0, 1, 4]] = MeshGraph.new ∧
        (MeshGraph.fromIter [[0, 1, 2], [0, 1, 3], [0, 1, 4]]).vertexCount = 0 ∧
        (MeshGraph.fromIter [[0, 1, 2], [0, 1, 3], [0, 1, 4]]).arcCount = 0 ∧
        (MeshGraph.fromIter [[0, 1, 2], [0, 1, 3], [0, 1, 4]]).edgeCount = 0 ∧
        (MeshGraph.fromIter [[0, 1, 2], [0, 1, 3], [0, 1, 4]]).faceCount = 0) :=
  ⟨by decide,
    from_iter_error_yields_default [[0, 1, 2], [0, 1, 3], [0, 1, 4]]
      GraphError.topologyConflict (by decide)⟩

end Plexus
